import Mathlib

/-!
Verification development for the ComfyUI-ChomfyNodes repository.

The four Python source files are shallowly embedded:
  * `src/nodes/prompt_line_loader.py`      -> `loadLine`
  * `src/nodes/auto_prompt_line.py`        -> `SeqState`, `nextPrompt`, `runSeq`
  * `src/nodes/simple_number_counter.py`   -> `CounterState`, `count`, `runCount`
  * `src/nodes/wildcard_prompt_assembler.py` -> `ComposerState`, `compose`, `runComposer`

Conventions of the embedding:
  * Python `int` becomes `Int` (or `Nat` for values that are provably
    non-negative counters in the source), Python `float` in the counter node
    becomes `Rat` (the counter only adds and copies values, and the concrete
    claims use values on which IEEE addition is exact, so exact arithmetic
    models it), Python `str` becomes `String`.
  * Raising an exception becomes returning `none`.
  * File I/O is abstracted: a file that the Python code successfully opens and
    splits into lines is modelled as the resulting `List String` (for CSV, a
    `List (List String)` of rows).  File-extension dispatch is absorbed into
    the constructor tag of `FileContent`.
  * `os.path.expanduser` is modelled as the identity on the path string.
  * Python `str.strip` is modelled by `String.trim`, `str.splitlines` by
    `pySplitlines` (both split on newline; exotic unicode whitespace and line
    separators are out of scope of the claims).
  * `random.Random(seed).randrange(n)` is modelled by an arbitrary pure
    function `fseed : Int -> Nat -> Nat -> Nat` of (seed, draw count, n),
    reduced mod n; the unseeded `random.Random()` is modelled by a second
    function of a per-call entropy value, so that seeded determinism is a
    nontrivial property.
-/

/-- The wrap-around index mapping `((i - 1) % total) + 1` shared verbatim by
`AutoPromptLineLoader._normalize_index` (auto_prompt_line.py line 75) and
`PromptLineLoader.load_line` (prompt_line_loader.py line 90).  Python `%` on a
positive divisor agrees with `Int.emod`. -/
def wrapIndex (i total : Int) : Int :=
  ((i - 1) % total) + 1

/-- `AutoPromptLineLoader._normalize_index` (auto_prompt_line.py lines 72-75):
raises when `total == 0`, otherwise applies the wrap formula. -/
def normalizeIndex (i : Int) (total : Nat) : Option Int :=
  if total = 0 then none else some (wrapIndex i (total : Int))

/-- `PromptLineLoader.load_line` (prompt_line_loader.py lines 66-96).
`lines` is the list of lines produced by the format readers for the opened
file (file reading abstracted); returns `(prompt, line_index, total_lines)`.
An out-of-range list access is modelled by the `[·]?` lookup. -/
def loadLine (lines : List String) (line_index : Int) (strip_whitespace : Bool) :
    Option (String × Int × Nat) :=
  let total := lines.length
  if total = 0 then none
  else
    let index := wrapIndex line_index (total : Int)
    match lines[(index - 1).toNat]? with
    | none => none
    | some t => some (if strip_whitespace then t.trim else t, index, total)

theorem wrapIndex_ge_one (i total : Int) (h : 0 < total) : 1 ≤ wrapIndex i total := by
  unfold wrapIndex
  have := Int.emod_nonneg (i - 1) (by omega : total ≠ 0)
  omega

theorem wrapIndex_le_total (i total : Int) (h : 0 < total) : wrapIndex i total ≤ total := by
  unfold wrapIndex
  have := Int.emod_lt_of_pos (i - 1) h
  omega

theorem wrapIndex_periodic (i total : Int) : wrapIndex (i + total) total = wrapIndex i total := by
  unfold wrapIndex
  have : i + total - 1 = (i - 1) + total * 1 := by ring
  rw [this, Int.add_mul_emod_self_left]

theorem loadLine_index_eq (lines : List String) (i : Int) (strip : Bool)
    (h : lines.length ≠ 0) :
    ∃ text, loadLine lines i strip =
      some (text, wrapIndex i (lines.length : Int), lines.length) := by
  unfold loadLine
  simp only [h, if_false]
  have hpos : (0 : Int) < (lines.length : Int) := by
    omega
  have h1 := wrapIndex_ge_one i (lines.length : Int) hpos
  have h2 := wrapIndex_le_total i (lines.length : Int) hpos
  have hlt : (wrapIndex i (lines.length : Int) - 1).toNat < lines.length := by
    omega
  rw [List.getElem?_eq_getElem hlt]
  exact ⟨_, rfl⟩

/-! ### Sequencer: `AutoPromptLineLoader` (auto_prompt_line.py) -/

/-- The inputs of one `next_prompt` call (auto_prompt_line.py lines 184-193). -/
structure SeqInputs where
  file_path : String
  start_value : Int
  step : Int
  max_steps : Int
  auto_reset : Bool
  reset : Bool
  csv_column : String
  strip_whitespace : Bool
deriving DecidableEq

/-- The file the sequencer reads: the line list that `_load_lines` would return
for the path, together with the modification time `os.path.getmtime` reports.
The claims all run against an unchanged file, so the environment is constant
across calls. -/
structure SeqEnv where
  lines : List String
  mtime : Int
deriving DecidableEq

/-- `AutoPromptLineLoader._state` (auto_prompt_line.py lines 33-50). -/
structure SeqState where
  inited : Bool
  file_path : String
  file_mtime : Option Int
  csv_column : String
  strip_whitespace : Bool
  start_value : Int
  step : Int
  max_steps : Int
  auto_reset : Bool
  lines : List String
  total_lines : Nat
  next_index : Int
  emitted_steps : Nat
  last_prompt : String
  last_line_index : Int
  last_step_index : Nat
deriving DecidableEq

/-- The dictionary built in `AutoPromptLineLoader.__init__`. -/
def initSeqState : SeqState :=
  ⟨false, "", none, "", true, 1, 1, -1, false, [], 0, 1, 0, "", 0, 0⟩

/-- The tuple `next_prompt` returns (auto_prompt_line.py line 263):
`(prompt, line_index, step_index, total_lines, done)`. -/
structure SeqOutput where
  prompt : String
  line_index : Int
  step_index : Nat
  total_lines : Nat
  done : Bool
deriving DecidableEq

/-- `AutoPromptLineLoader._should_reset` (auto_prompt_line.py lines 119-143). -/
def seqShouldReset (s : SeqState) (inp : SeqInputs) (mtime : Int) : Bool :=
  inp.reset || !s.inited ||
    (s.file_path != inp.file_path || s.file_mtime != some mtime ||
     s.start_value != inp.start_value || s.step != inp.step ||
     s.max_steps != inp.max_steps || s.auto_reset != inp.auto_reset ||
     s.csv_column != inp.csv_column || s.strip_whitespace != inp.strip_whitespace)

/-- `AutoPromptLineLoader._reset_state` (auto_prompt_line.py lines 145-179):
reloads the lines (here: takes them from the environment), fails on an empty
file, and overwrites the whole state. -/
def seqResetState (inp : SeqInputs) (env : SeqEnv) : Option SeqState :=
  if env.lines = [] then none
  else
    some
      { inited := true
        file_path := inp.file_path
        file_mtime := some env.mtime
        csv_column := inp.csv_column
        strip_whitespace := inp.strip_whitespace
        start_value := inp.start_value
        step := inp.step
        max_steps := inp.max_steps
        auto_reset := inp.auto_reset
        lines := env.lines
        total_lines := env.lines.length
        next_index := inp.start_value
        emitted_steps := 0
        last_prompt := ""
        last_line_index := 0
        last_step_index := 0 }

/-- The emission block of `next_prompt` (auto_prompt_line.py lines 249-263):
normalize the index, read the line, strip per the call input, bump the
counters, record the last output. -/
def seqEmit (s : SeqState) (inp : SeqInputs) : Option (SeqOutput × SeqState) :=
  match normalizeIndex s.next_index s.total_lines with
  | none => none
  | some index =>
    match s.lines[(index - 1).toNat]? with
    | none => none
    | some raw =>
      let prompt := if inp.strip_whitespace then raw.trim else raw
      let emitted := s.emitted_steps + 1
      let done := decide (0 ≤ inp.max_steps ∧ inp.max_steps ≤ (emitted : Int))
      let s' :=
        { s with
          emitted_steps := emitted
          next_index := s.next_index + s.step
          last_prompt := prompt
          last_line_index := index
          last_step_index := emitted }
      some (⟨prompt, index, emitted, s.total_lines, done⟩, s')

/-- The body of `next_prompt` after the reset check (auto_prompt_line.py lines
225-263): the exhaustion test `max_steps >= 0 and emitted_steps >= max_steps`
uses the call input `max_steps` but the stored `auto_reset`; when exhausted
without auto-reset it re-returns the cached last output with `done = True`
and does not touch the state. -/
def nextPromptCore (s : SeqState) (inp : SeqInputs) (env : SeqEnv) :
    Option (SeqOutput × SeqState) :=
  if 0 ≤ inp.max_steps ∧ inp.max_steps ≤ (s.emitted_steps : Int) then
    if s.auto_reset then
      match seqResetState inp env with
      | none => none
      | some s1 => seqEmit s1 inp
    else
      some (⟨s.last_prompt, s.last_line_index, s.last_step_index, s.total_lines, true⟩, s)
  else seqEmit s inp

/-- `AutoPromptLineLoader.next_prompt` (auto_prompt_line.py lines 184-263).
The empty-path check is kept; the file-exists check and the read are absorbed
into `env`. -/
def nextPrompt (s : SeqState) (inp : SeqInputs) (env : SeqEnv) :
    Option (SeqOutput × SeqState) :=
  if inp.file_path = "" then none
  else if seqShouldReset s inp env.mtime then
    match seqResetState inp env with
    | none => none
    | some s1 => nextPromptCore s1 inp env
  else nextPromptCore s inp env

/-- `n` successive `next_prompt` calls on one node instance with fixed inputs
and an unchanged file; returns the state after the calls and the output of the
last call (`none` output for `n = 0`). -/
def runSeq (inp : SeqInputs) (env : SeqEnv) : Nat → Option (SeqState × Option SeqOutput)
  | 0 => some (initSeqState, none)
  | n + 1 =>
    match runSeq inp env n with
    | none => none
    | some (s, _) =>
      match nextPrompt s inp env with
      | none => none
      | some (out, s') => some (s', some out)

/-! ### Counter: `SimpleNumberCounter` (simple_number_counter.py) -/

/-- `SimpleNumberCounter._state` (simple_number_counter.py lines 36-45).
Python floats are modelled as exact rationals (see the file header). -/
structure CounterState where
  inited : Bool
  start_value : Rat
  step : Rat
  max_steps : Int
  auto_reset : Bool
  next_value : Rat
  last_value : Rat
  emitted_steps : Nat
deriving DecidableEq

/-- The dictionary built in `SimpleNumberCounter.__init__`. -/
def initCounterState : CounterState :=
  ⟨false, 0, 1, -1, false, 0, 0, 0⟩

/-- `SimpleNumberCounter._reset_state` (simple_number_counter.py lines 63-75). -/
def counterReset (start_value step : Rat) (max_steps : Int) (auto_reset : Bool) :
    CounterState :=
  ⟨true, start_value, step, max_steps, auto_reset, start_value, start_value, 0⟩

/-- `SimpleNumberCounter._should_reset` (simple_number_counter.py lines 77-94). -/
def counterShouldReset (s : CounterState) (start_value step : Rat) (max_steps : Int)
    (auto_reset reset : Bool) : Bool :=
  reset || !s.inited ||
    (s.start_value != start_value || s.step != step ||
     s.max_steps != max_steps || s.auto_reset != auto_reset)

/-- The emission tail of `count` (simple_number_counter.py lines 118-124):
emit `next_value`, record it as `last_value`, bump `emitted_steps`, advance
`next_value` by the call input `step`. -/
def countEmit (s : CounterState) (step : Rat) (max_steps : Int) :
    (Rat × Nat × Bool) × CounterState :=
  let value := s.next_value
  let s' :=
    { s with
      last_value := value
      emitted_steps := s.emitted_steps + 1
      next_value := value + step }
  ((value, s'.emitted_steps, decide (0 ≤ max_steps ∧ max_steps ≤ (s'.emitted_steps : Int))), s')

/-- `SimpleNumberCounter.count` (simple_number_counter.py lines 96-124).
The exhaustion test uses the call input `max_steps` but the stored
`auto_reset`; the held branch returns `(last_value, emitted_steps, True)`
without mutating the state. -/
def count (s : CounterState) (start_value step : Rat) (max_steps : Int)
    (auto_reset reset : Bool) : (Rat × Nat × Bool) × CounterState :=
  let s :=
    if counterShouldReset s start_value step max_steps auto_reset reset then
      counterReset start_value step max_steps auto_reset
    else s
  if 0 ≤ max_steps ∧ max_steps ≤ (s.emitted_steps : Int) then
    if s.auto_reset then countEmit (counterReset start_value step max_steps auto_reset) step max_steps
    else ((s.last_value, s.emitted_steps, true), s)
  else countEmit s step max_steps

/-- `n` successive `count` calls with fixed inputs; returns the state after the
calls and the output of the last call (`none` for `n = 0`). -/
def runCount (start_value step : Rat) (max_steps : Int) (auto_reset reset : Bool) :
    Nat → Option (Rat × Nat × Bool) × CounterState
  | 0 => (none, initCounterState)
  | n + 1 =>
    let r := runCount start_value step max_steps auto_reset reset n
    let r' := count r.2 start_value step max_steps auto_reset reset
    (some r'.1, r'.2)

/-! ### Composer: `WildcardPromptAssembler` (wildcard_prompt_assembler.py) -/

/-- One record produced by the composer file readers
(wildcard_prompt_assembler.py lines 319-365): the 1-based position in the
unfiltered read order and the (possibly stripped) text. -/
structure Record where
  line_index : Nat
  text : String
deriving DecidableEq

/-- One value of `WildcardPromptAssembler._cache`
(wildcard_prompt_assembler.py lines 311-316). -/
structure CacheEntry where
  mtime : Int
  strip : Bool
  ignore_blank : Bool
  records : List Record
deriving DecidableEq

/-- A file on disk, as far as the composer observes it.  The extension
dispatch of `_load_file_lines` is absorbed into the constructor tag
(`text` also covers `.md`/`.log`; `.docx` is not needed by any claim). -/
inductive FileContent where
  | text (lines : List String)
  | csvFile (rows : List (List String))
deriving DecidableEq

/-- A path entry of the modelled filesystem. -/
structure FSFile where
  mtime : Int
  content : FileContent

/-- The filesystem the composer runs against: per-path file lookup, a glob
listing function for `DIRECTORY` mode, and a directory-existence test. -/
structure FS where
  file : String → Option FSFile
  dirGlob : String → List String
  isDir : String → Bool

/-- Python dict assignment `d[k] = v` for string-keyed association lists:
the new binding shadows (and drops) any previous binding of the key. -/
def assocSet {α : Type} (d : List (String × α)) (k : String) (v : α) :
    List (String × α) :=
  (k, v) :: d.filter (fun p => p.1 != k)

/-- Python `d.get(k, 0)` on the positions dict. -/
def posGet (d : List (String × Nat)) (k : String) : Nat :=
  (d.lookup k).getD 0

/-- The instance attributes set in `WildcardPromptAssembler.__init__`
(wildcard_prompt_assembler.py lines 36-39). -/
structure ComposerState where
  cache : List (String × CacheEntry)
  positions : List (String × Nat)
  global_step : Nat
deriving DecidableEq

/-- Fresh composer instance. -/
def initComposerState : ComposerState := ⟨[], [], 0⟩

/-- The `random.Random` object one `compose` call hands to the selections.
`seeded`/`seed` mirror `Random(seed)`; `entropy` stands for the OS entropy an
unseeded `Random()` was created from; `draws` counts the `randrange` calls
already made on this object. -/
structure Rng where
  seeded : Bool
  seed : Int
  entropy : Nat
  draws : Nat
deriving DecidableEq

/-- `WildcardPromptAssembler._make_rng` (wildcard_prompt_assembler.py lines
188-192): bump the call counter, then seed from `random_seed + step - 1` when
the seed is non-negative, else use an unseeded source. -/
def makeRng (st : ComposerState) (random_seed : Int) (entropy : Nat) :
    ComposerState × Rng :=
  let st := { st with global_step := st.global_step + 1 }
  if 0 ≤ random_seed then
    (st, ⟨true, random_seed + (st.global_step : Int) - 1, entropy, 0⟩)
  else (st, ⟨false, 0, entropy, 0⟩)

/-- `rng.randrange(n)`: the draw is a pure function of the seed (or entropy)
and the number of draws already made, reduced mod `n` so that it lies in
`[0, n)` as `randrange` guarantees. -/
def rngRandrange (r : Rng) (n : Nat) (fseed : Int → Nat → Nat → Nat)
    (funseed : Nat → Nat → Nat → Nat) : Nat × Rng :=
  ((if r.seeded then fseed r.seed r.draws n else funseed r.entropy r.draws n) % n,
   { r with draws := r.draws + 1 })

/-- `WildcardPromptAssembler._reset_state` (wildcard_prompt_assembler.py lines
184-186): clears `_positions` and zeroes `_global_step`; `_cache` is not
touched. -/
def resetComposer (st : ComposerState) : ComposerState :=
  { st with positions := [], global_step := 0 }

/-- Python `str.splitlines` restricted to `\n` separators: like
`String.splitOn`, but without the trailing empty piece a final newline would
produce, and `[]` on the empty string. -/
def pySplitlines (s : String) : List String :=
  let parts := s.splitOn "\n"
  match parts.getLast? with
  | some "" => parts.dropLast
  | _ => parts

/-- `WildcardPromptAssembler._read_text_file` loop
(wildcard_prompt_assembler.py lines 320-328), enumerating from `i0`. -/
def readTextFileAux (strip ignore_blank : Bool) : List String → Nat → List Record
  | [], _ => []
  | l :: rest, idx =>
    let text := if strip then l.trim else l
    if ignore_blank && text == "" then readTextFileAux strip ignore_blank rest (idx + 1)
    else ⟨idx, text⟩ :: readTextFileAux strip ignore_blank rest (idx + 1)

/-- `WildcardPromptAssembler._read_text_file` (wildcard_prompt_assembler.py
lines 319-329); `lines` are the file lines with their trailing newline already
removed (the `rstrip` of the read loop). -/
def readTextFile (lines : List String) (strip ignore_blank : Bool) : List Record :=
  readTextFileAux strip ignore_blank lines 1

/-- The no-column branch loop of `WildcardPromptAssembler._read_csv`
(wildcard_prompt_assembler.py lines 357-364), enumerating from `i0`. -/
def readCsvPlainAux (strip ignore_blank : Bool) : List (List String) → Nat → List Record
  | [], _ => []
  | row :: rest, idx =>
    let text := String.intercalate ", " (row.map (fun cell => if strip then cell.trim else cell))
    let text := if strip then text.trim else text
    if ignore_blank && text == "" then readCsvPlainAux strip ignore_blank rest (idx + 1)
    else ⟨idx, text⟩ :: readCsvPlainAux strip ignore_blank rest (idx + 1)

/-- The no-column branch of `WildcardPromptAssembler._read_csv`. -/
def readCsvPlain (rows : List (List String)) (strip ignore_blank : Bool) : List Record :=
  readCsvPlainAux strip ignore_blank rows 1

/-- The column branch loop of `WildcardPromptAssembler._read_csv`
(wildcard_prompt_assembler.py lines 349-355): `row.get(column, "")` becomes a
positional lookup of the column inside the header (a short row yields `""`). -/
def readCsvColumnAux (strip ignore_blank : Bool) (colIdx : Nat) :
    List (List String) → Nat → List Record
  | [], _ => []
  | row :: rest, idx =>
    let text := row.getD colIdx ""
    let text := if strip then text.trim else text
    if ignore_blank && text == "" then readCsvColumnAux strip ignore_blank colIdx rest (idx + 1)
    else ⟨idx, text⟩ :: readCsvColumnAux strip ignore_blank colIdx rest (idx + 1)

/-- The column branch of `WildcardPromptAssembler._read_csv`: the first row is
the `DictReader` header; a missing column (or a headerless empty file) raises. -/
def readCsvColumn (rows : List (List String)) (column : String)
    (strip ignore_blank : Bool) : Option (List Record) :=
  match rows with
  | [] => none
  | header :: body =>
    match header.indexOf? column with
    | none => none
    | some colIdx => some (readCsvColumnAux strip ignore_blank colIdx body 1)

/-- The format dispatch inside `_load_file_lines`
(wildcard_prompt_assembler.py lines 299-309). -/
def readContent (content : FileContent) (column : Option String)
    (strip ignore_blank : Bool) : Option (List Record) :=
  match content, column with
  | FileContent.text lines, _ => some (readTextFile lines strip ignore_blank)
  | FileContent.csvFile rows, some col => readCsvColumn rows col strip ignore_blank
  | FileContent.csvFile rows, none => some (readCsvPlain rows strip ignore_blank)

/-- `WildcardPromptAssembler._load_file_lines` (wildcard_prompt_assembler.py
lines 286-317).  The cache key is `f"{path}::{column or ''}"`; the stored
entry is reused only when its modification time and both formatting flags
match, otherwise the file is re-read and the entry overwritten.  The returned
`Bool` reports whether the call was served from the cache. -/
def loadFileLines (st : ComposerState) (fs : FS) (path : String)
    (column : Option String) (strip ignore_blank : Bool) :
    Option (List Record × Bool × ComposerState) :=
  match fs.file path with
  | none => none
  | some f =>
    let cache_key := path ++ "::" ++ column.getD ""
    let fresh : Option (List Record × Bool × ComposerState) :=
      match readContent f.content column strip ignore_blank with
      | none => none
      | some records =>
        some (records, false,
          { st with cache := assocSet st.cache cache_key ⟨f.mtime, strip, ignore_blank, records⟩ })
    match st.cache.lookup cache_key with
    | some e =>
      if e.mtime = f.mtime ∧ e.strip = strip ∧ e.ignore_blank = ignore_blank then
        some (e.records, true, st)
      else fresh
    | none => fresh

/-- `WildcardPromptAssembler._select_line_from_file`
(wildcard_prompt_assembler.py lines 257-284).  Any selection mode other than
the literal string `"SEQUENTIAL"` takes the random branch, as in the source. -/
def selectLineFromFile (st : ComposerState) (fs : FS)
    (fseed : Int → Nat → Nat → Nat) (funseed : Nat → Nat → Nat → Nat)
    (path : String) (column : Option String) (selection_mode : String)
    (strip ignore_blank : Bool) (rng : Rng) :
    Option ((String × Nat × Nat) × ComposerState × Rng) :=
  match loadFileLines st fs path column strip ignore_blank with
  | none => none
  | some (records, _, st) =>
    if records = [] then none
    else
      let key := path ++ "::" ++ column.getD ""
      if selection_mode = "SEQUENTIAL" then
        let position := posGet st.positions key
        let idx := position % records.length
        let st := { st with positions := assocSet st.positions key (position + 1) }
        match records[idx]? with
        | none => none
        | some r => some ((r.text, r.line_index, records.length), st, rng)
      else
        let (idx, rng) := rngRandrange rng records.length fseed funseed
        match records[idx]? with
        | none => none
        | some r => some ((r.text, r.line_index, records.length), st, rng)

/-- Insertion of a string into a lexicographically sorted list. -/
def insertSorted (x : String) : List String → List String
  | [] => [x]
  | y :: ys => if x ≤ y then x :: y :: ys else y :: insertSorted x ys

/-- `sorted` on the glob results (insertion sort by `String` order). -/
def sortStrings : List String → List String
  | [] => []
  | x :: xs => insertSorted x (sortStrings xs)

/-- `WildcardPromptAssembler._parse_manual_paths`
(wildcard_prompt_assembler.py lines 211-217). -/
def parseManualPaths (manual_paths : String) (max_files : Nat) : List String :=
  (((pySplitlines manual_paths).map String.trim).filter
    (fun l => l != "" && !l.startsWith "#")).take max_files

/-- `WildcardPromptAssembler._load_manifest` (wildcard_prompt_assembler.py
lines 219-233); the manifest is opened as plain text, so the model requires a
`text` file at the path. -/
def loadManifest (fs : FS) (manifest_path : String) (max_files : Nat) :
    Option (List String) :=
  if manifest_path = "" then none
  else
    match fs.file manifest_path with
    | some ⟨_, FileContent.text lines⟩ =>
      some ((((lines.map String.trim).filter
        (fun l => l != "" && !l.startsWith "#")).take max_files))
    | _ => none

/-- `WildcardPromptAssembler._scan_directory` (wildcard_prompt_assembler.py
lines 235-244). -/
def scanDirectory (fs : FS) (directory_path directory_glob : String)
    (max_files : Nat) : Option (List String) :=
  if directory_path = "" then none
  else if !fs.isDir directory_path then none
  else
    let pattern :=
      directory_path ++ "/" ++ (if directory_glob = "" then "*.txt" else directory_glob)
    some ((sortStrings (fs.dirGlob pattern)).take max_files)

/-- `WildcardPromptAssembler._parse_custom_inserts`
(wildcard_prompt_assembler.py lines 246-249); after `splitlines` no piece
contains a newline, so the per-line `rstrip` is the identity. -/
def parseCustomInserts (custom_inserts : String) : List String :=
  pySplitlines custom_inserts

/-- `WildcardPromptAssembler._split_path_and_column`
(wildcard_prompt_assembler.py lines 251-255): split at the first `::`; an
empty (stripped) column falls back to none / the stripped default. -/
def splitPathAndColumn (entry : String) (default_column : String) :
    String × Option String :=
  match entry.splitOn "::" with
  | p :: rest@(_ :: _) =>
    let c := (String.intercalate "::" rest).trim
    (p.trim, if c = "" then none else some c)
  | _ =>
    (entry.trim, if default_column.trim = "" then none else some default_column.trim)

/-- The inputs of one `compose` call (wildcard_prompt_assembler.py lines
91-108).  `front_text`/`back_text` model the source parameters
`prefix_text`/`suffix_text`. -/
structure ComposeInputs where
  mode : String
  selection_mode : String
  auto_space : Bool
  strip_whitespace : Bool
  ignore_blank_lines : Bool
  random_seed : Int
  manual_paths : String
  manifest_path : String
  directory_path : String
  directory_glob : String
  max_files : Nat
  custom_inserts : String
  front_text : String
  back_text : String
  csv_column : String
  reset : Bool
deriving DecidableEq

/-- One element of the `segments` report (wildcard_prompt_assembler.py lines
147-155). -/
structure Segment where
  file : String
  column : Option String
  line_index : Nat
  total_lines : Nat
  text : String
deriving DecidableEq

/-- The tuple `compose` returns; the JSON serialization of the report is
abstracted to the segment list itself. -/
structure ComposeOutput where
  prompt : String
  segments : List Segment
  file_count : Nat
deriving DecidableEq

/-- `WildcardPromptAssembler._gather_files` (wildcard_prompt_assembler.py
lines 194-209). -/
def gatherFiles (fs : FS) (inp : ComposeInputs) : Option (List String) :=
  if inp.mode = "MANUAL" then some (parseManualPaths inp.manual_paths inp.max_files)
  else if inp.mode = "CONFIG_FILE" then loadManifest fs inp.manifest_path inp.max_files
  else if inp.mode = "DIRECTORY" then
    scanDirectory fs inp.directory_path inp.directory_glob inp.max_files
  else none

/-- The per-file loop of `compose` (wildcard_prompt_assembler.py lines
131-155): each entry contributes an optional positional insert followed by the
selected text to `parts`, and one entry to `segments`. -/
def composeLoop (fs : FS) (fseed : Int → Nat → Nat → Nat)
    (funseed : Nat → Nat → Nat → Nat) (inp : ComposeInputs) (inserts : List String) :
    List String → Nat → ComposerState → Rng →
    Option (List String × List Segment × ComposerState × Rng)
  | [], _, st, rng => some ([], [], st, rng)
  | entry :: rest, idx, st, rng =>
    let pc := splitPathAndColumn entry inp.csv_column
    match selectLineFromFile st fs fseed funseed pc.1 pc.2 inp.selection_mode
        inp.strip_whitespace inp.ignore_blank_lines rng with
    | none => none
    | some ((text, line_index, total), st, rng) =>
      match composeLoop fs fseed funseed inp inserts rest (idx + 1) st rng with
      | none => none
      | some (parts, segs, st', rng') =>
        let myParts :=
          (if idx < inserts.length && inserts.getD idx "" != "" then [inserts.getD idx ""] else [])
            ++ [text]
        some (myParts ++ parts, (⟨pc.1, pc.2, line_index, total, text⟩ : Segment) :: segs,
          st', rng')

/-- `WildcardPromptAssembler.compose` (wildcard_prompt_assembler.py lines
91-179).  `entropy` feeds an unseeded rng for this call (unused when
`random_seed >= 0`). -/
def compose (st : ComposerState) (fs : FS) (fseed : Int → Nat → Nat → Nat)
    (funseed : Nat → Nat → Nat → Nat) (inp : ComposeInputs) (entropy : Nat) :
    Option (ComposeOutput × ComposerState) :=
  let st := if inp.reset then resetComposer st else st
  match gatherFiles fs inp with
  | none => none
  | some files =>
    if files = [] then none
    else
      let inserts := parseCustomInserts inp.custom_inserts
      let p := makeRng st inp.random_seed entropy
      match composeLoop fs fseed funseed inp inserts files 0 p.1 p.2 with
      | none => none
      | some (loopParts, segments, st, _) =>
        let parts := (if inp.front_text != "" then [inp.front_text] else []) ++ loopParts
        let parts := parts ++
          (if files.length < inserts.length && inserts.getD files.length "" != "" then
            [inserts.getD files.length ""]
          else [])
        let parts := parts ++ (if inp.back_text != "" then [inp.back_text] else [])
        let prompt :=
          if inp.auto_space then String.intercalate " " (parts.filter (fun p => p != ""))
          else String.join (parts.filter (fun p => p != ""))
        some (⟨prompt, segments, files.length⟩, st)

/-- A run of `compose` calls on one composer instance: each call comes with
its inputs and the entropy an unseeded rng would consume; the run fails if
any call raises. -/
def runComposer (fs : FS) (fseed : Int → Nat → Nat → Nat)
    (funseed : Nat → Nat → Nat → Nat) :
    ComposerState → List (ComposeInputs × Nat) →
    Option (List ComposeOutput × ComposerState)
  | st, [] => some ([], st)
  | st, c :: rest =>
    match compose st fs fseed funseed c.1 c.2 with
    | none => none
    | some (out, st) =>
      match runComposer fs fseed funseed st rest with
      | none => none
      | some (outs, st') => some (out :: outs, st')

/-! ### Claim C1 -/

theorem seqEmit_line_index (s : SeqState) (inp : SeqInputs) (out : SeqOutput)
    (s' : SeqState) (h : seqEmit s inp = some (out, s')) :
    out.line_index = wrapIndex s.next_index (s.total_lines : Int) := by
  unfold seqEmit normalizeIndex at h
  by_cases h0 : s.total_lines = 0
  · simp [h0] at h
  · simp only [h0, if_false] at h
    rcases hg : s.lines[(wrapIndex s.next_index (s.total_lines : Int) - 1).toNat]? with _ | raw
    · rw [hg] at h; exact absurd h (by simp)
    · rw [hg] at h
      simp only [Option.some.injEq, Prod.mk.injEq] at h
      rw [← h.1]

/-- Claim C1: for every `total > 0` and every integer `i`, the wrap mapping
`((i - 1) mod total) + 1` lies in `[1, total]` and is periodic in `i` with
period `total`; the single-shot loader (`loadLine`) returns exactly this value
as its `line_index`, and the sequencer emission (`seqEmit`) emits exactly this
value of its stored `next_index` as its `line_index`. -/
theorem claim_C1 :
    (∀ i total : Int, 0 < total →
      1 ≤ wrapIndex i total ∧ wrapIndex i total ≤ total) ∧
    (∀ i total : Int, wrapIndex (i + total) total = wrapIndex i total) ∧
    (∀ (lines : List String) (i : Int) (strip : Bool), lines ≠ [] →
      ∃ text, loadLine lines i strip =
        some (text, wrapIndex i (lines.length : Int), lines.length)) ∧
    (∀ (s : SeqState) (inp : SeqInputs) (out : SeqOutput) (s' : SeqState),
      seqEmit s inp = some (out, s') →
      out.line_index = wrapIndex s.next_index (s.total_lines : Int)) := by
  refine ⟨fun i total h => ⟨wrapIndex_ge_one i total h, wrapIndex_le_total i total h⟩,
    fun i total => wrapIndex_periodic i total,
    fun lines i strip h => loadLine_index_eq lines i strip (by simpa using h),
    fun s inp out s' h => seqEmit_line_index s inp out s' h⟩

/-- Witness for C1 at concrete inputs: `total = 3`, `i = 4` (the worked
example of the spec, `load_line(path, 4)` on a 3-line file returning index 1). -/
theorem claim_C1_witness :
    (1 ≤ wrapIndex 4 3 ∧ wrapIndex 4 3 ≤ 3) ∧
    wrapIndex (4 + 3) 3 = wrapIndex 4 3 ∧
    (∃ text, loadLine ["a", "b", "c"] 4 true =
      some (text, wrapIndex 4 (3 : Int), 3)) := by
  refine ⟨claim_C1.1 4 3 (by decide), claim_C1.2.1 4 3, ?_⟩
  have := claim_C1.2.2.1 ["a", "b", "c"] 4 true (by decide)
  simpa using this

/-! ### Sequencer state lemmas -/

/-- The sequencer state agrees with the call inputs and the file: exactly the
situation of repeated calls with unchanged inputs on an unchanged file, after
the first initialization. -/
def seqConforms (inp : SeqInputs) (env : SeqEnv) (s : SeqState) : Prop :=
  s.inited = true ∧ s.file_path = inp.file_path ∧ s.file_mtime = some env.mtime ∧
  s.csv_column = inp.csv_column ∧ s.strip_whitespace = inp.strip_whitespace ∧
  s.start_value = inp.start_value ∧ s.step = inp.step ∧ s.max_steps = inp.max_steps ∧
  s.auto_reset = inp.auto_reset ∧ s.lines = env.lines ∧ s.total_lines = env.lines.length

theorem seqResetState_some (inp : SeqInputs) (env : SeqEnv) (hne : env.lines ≠ []) :
    ∃ s0, seqResetState inp env = some s0 ∧ seqConforms inp env s0 ∧
      s0.next_index = inp.start_value ∧ s0.emitted_steps = 0 ∧
      s0.last_prompt = "" ∧ s0.last_line_index = 0 ∧ s0.last_step_index = 0 := by
  unfold seqResetState
  simp only [hne, if_false]
  exact ⟨_, rfl, ⟨rfl, rfl, rfl, rfl, rfl, rfl, rfl, rfl, rfl, rfl, rfl⟩,
    rfl, rfl, rfl, rfl, rfl⟩

theorem seqShouldReset_false (inp : SeqInputs) (env : SeqEnv) (s : SeqState)
    (h : seqConforms inp env s) (hr : inp.reset = false) :
    seqShouldReset s inp env.mtime = false := by
  obtain ⟨h1, h2, h3, h4, h5, h6, h7, h8, h9, h10, h11⟩ := h
  unfold seqShouldReset
  rw [h1, h2, h3, h4, h5, h6, h7, h8, h9, hr]
  simp

theorem seqEmit_spec (s : SeqState) (inp : SeqInputs)
    (hT : s.total_lines = s.lines.length) (hne : s.lines ≠ []) :
    ∃ out,
      seqEmit s inp = some (out,
        { s with
          emitted_steps := s.emitted_steps + 1
          next_index := s.next_index + s.step
          last_prompt := out.prompt
          last_line_index := out.line_index
          last_step_index := s.emitted_steps + 1 }) ∧
      out.step_index = s.emitted_steps + 1 ∧
      out.line_index = wrapIndex s.next_index (s.total_lines : Int) ∧
      out.total_lines = s.total_lines ∧
      out.done = decide (0 ≤ inp.max_steps ∧
        inp.max_steps ≤ ((s.emitted_steps + 1 : Nat) : Int)) := by
  have h0 : s.total_lines ≠ 0 := by
    rw [hT]
    simpa using hne
  unfold seqEmit normalizeIndex
  simp only [h0, if_false]
  have hpos : (0 : Int) < (s.total_lines : Int) := by omega
  have h1 := wrapIndex_ge_one s.next_index _ hpos
  have h2 := wrapIndex_le_total s.next_index _ hpos
  have hlt : (wrapIndex s.next_index (s.total_lines : Int) - 1).toNat < s.lines.length := by
    omega
  rw [List.getElem?_eq_getElem hlt]
  exact ⟨_, rfl, rfl, rfl, rfl, rfl⟩

theorem nextPrompt_frozen (inp : SeqInputs) (env : SeqEnv) (s : SeqState)
    (h : seqConforms inp env s) (hfp : inp.file_path ≠ "") (hr : inp.reset = false)
    (ha : inp.auto_reset = false) (h0 : 0 ≤ inp.max_steps)
    (hm : inp.max_steps ≤ (s.emitted_steps : Int)) :
    nextPrompt s inp env =
      some (⟨s.last_prompt, s.last_line_index, s.last_step_index, s.total_lines, true⟩, s) := by
  unfold nextPrompt
  rw [seqShouldReset_false inp env s h hr]
  simp only [hfp, if_false, Bool.false_eq_true, if_neg (fun hc => hfp hc)]
  unfold nextPromptCore
  rw [if_pos ⟨h0, hm⟩, h.2.2.2.2.2.2.2.2.1, ha]
  simp

theorem nextPrompt_normal (inp : SeqInputs) (env : SeqEnv) (s : SeqState)
    (h : seqConforms inp env s) (hfp : inp.file_path ≠ "") (hr : inp.reset = false)
    (hm : ¬(0 ≤ inp.max_steps ∧ inp.max_steps ≤ (s.emitted_steps : Int))) :
    nextPrompt s inp env = seqEmit s inp := by
  unfold nextPrompt
  rw [seqShouldReset_false inp env s h hr]
  simp only [hfp, if_false, Bool.false_eq_true, if_neg (fun hc => hfp hc)]
  unfold nextPromptCore
  rw [if_neg hm]

theorem seqConforms_update (inp : SeqInputs) (env : SeqEnv) (s : SeqState)
    (h : seqConforms inp env s) (e : Nat) (ni : Int) (lp : String) (lli : Int)
    (lsi : Nat) :
    seqConforms inp env
      { s with
        emitted_steps := e
        next_index := ni
        last_prompt := lp
        last_line_index := lli
        last_step_index := lsi } := h

theorem seqShouldReset_init (inp : SeqInputs) (mtime : Int) :
    seqShouldReset initSeqState inp mtime = true := by
  unfold seqShouldReset initSeqState
  simp

theorem nextPrompt_after_reset (inp : SeqInputs) (env : SeqEnv) (s : SeqState)
    (hfp : inp.file_path ≠ "") (hsr : seqShouldReset s inp env.mtime = true)
    (s0 : SeqState) (h0 : seqResetState inp env = some s0) :
    nextPrompt s inp env = nextPromptCore s0 inp env := by
  unfold nextPrompt
  rw [if_neg hfp, hsr, h0]
  simp

theorem runSeq_step (inp : SeqInputs) (env : SeqEnv) (n : Nat) (s : SeqState)
    (o : Option SeqOutput) (out : SeqOutput) (s' : SeqState)
    (h : runSeq inp env n = some (s, o)) (h2 : nextPrompt s inp env = some (out, s')) :
    runSeq inp env (n + 1) = some (s', some out) := by
  simp only [runSeq, h, h2]

theorem runSeq_reaches (inp : SeqInputs) (env : SeqEnv) (N : Nat)
    (hfp : inp.file_path ≠ "") (hr : inp.reset = false)
    (hms : inp.max_steps = (N : Int)) (hne : env.lines ≠ []) :
    ∀ k, 1 ≤ k → k ≤ N →
      ∃ s out, runSeq inp env k = some (s, some out) ∧ seqConforms inp env s ∧
        s.emitted_steps = k ∧ out.prompt = s.last_prompt ∧
        out.line_index = s.last_line_index ∧ out.step_index = s.last_step_index ∧
        out.total_lines = s.total_lines ∧
        out.done = decide (0 ≤ inp.max_steps ∧ inp.max_steps ≤ ((k : Nat) : Int)) := by
  intro k
  induction k with
  | zero => omega
  | succ j ih =>
    intro hk1 hkN
    rcases Nat.eq_zero_or_pos j with hj | hj
    · subst hj
      obtain ⟨s0, hreset, hconf, hni, he, hlp, hlli, hlsi⟩ := seqResetState_some inp env hne
      have hT : s0.total_lines = s0.lines.length := by
        rw [hconf.2.2.2.2.2.2.2.2.2.2, hconf.2.2.2.2.2.2.2.2.2.1]
      have hlne : s0.lines ≠ [] := by
        rw [hconf.2.2.2.2.2.2.2.2.2.1]; exact hne
      obtain ⟨out, hemit, hsi, hli, htl, hdone⟩ := seqEmit_spec s0 inp hT hlne
      have hcall : nextPrompt initSeqState inp env = seqEmit s0 inp := by
        rw [nextPrompt_after_reset inp env initSeqState hfp
          (seqShouldReset_init inp env.mtime) s0 hreset]
        unfold nextPromptCore
        rw [if_neg]
        rw [hms, he]
        intro hc
        omega
      refine ⟨{ s0 with
          emitted_steps := s0.emitted_steps + 1
          next_index := s0.next_index + s0.step
          last_prompt := out.prompt
          last_line_index := out.line_index
          last_step_index := s0.emitted_steps + 1 }, out, ?_,
        seqConforms_update inp env s0 hconf _ _ _ _ _, ?_, ?_, ?_, ?_, ?_, ?_⟩
      · exact runSeq_step inp env 0 initSeqState none out _ rfl (by rw [hcall, hemit])
      · simp [he]
      · rfl
      · rfl
      · simp [hsi, he]
      · simpa using htl
      · rw [hdone, he]
    · obtain ⟨s, out, hrun, hconf, he, _, _, _, _, _⟩ := ih hj (by omega)
      have hT : s.total_lines = s.lines.length := by
        rw [hconf.2.2.2.2.2.2.2.2.2.2, hconf.2.2.2.2.2.2.2.2.2.1]
      have hlne : s.lines ≠ [] := by
        rw [hconf.2.2.2.2.2.2.2.2.2.1]; exact hne
      obtain ⟨out', hemit, hsi, hli, htl, hdone⟩ := seqEmit_spec s inp hT hlne
      have hcall : nextPrompt s inp env = seqEmit s inp := by
        apply nextPrompt_normal inp env s hconf hfp hr
        rw [hms, he]
        intro hc
        omega
      refine ⟨{ s with
          emitted_steps := s.emitted_steps + 1
          next_index := s.next_index + s.step
          last_prompt := out'.prompt
          last_line_index := out'.line_index
          last_step_index := s.emitted_steps + 1 }, out', ?_,
        seqConforms_update inp env s hconf _ _ _ _ _, ?_, ?_, ?_, ?_, ?_, ?_⟩
      · exact runSeq_step inp env j s (some out) out' _ hrun (by rw [hcall, hemit])
      · simp [he]
      · rfl
      · rfl
      · simp [hsi, he]
      · simpa using htl
      · rw [hdone, he]

theorem nextPromptCore_frozen (inp : SeqInputs) (env : SeqEnv) (s : SeqState)
    (hA : s.auto_reset = false) (h0 : 0 ≤ inp.max_steps)
    (hm : inp.max_steps ≤ (s.emitted_steps : Int)) :
    nextPromptCore s inp env =
      some (⟨s.last_prompt, s.last_line_index, s.last_step_index, s.total_lines, true⟩, s) := by
  unfold nextPromptCore
  rw [if_pos ⟨h0, hm⟩, hA]
  simp

/-! ### Claim C2 -/

/-- Claim C2: with `max_steps = N >= 0` and `auto_reset = false`, once the
sequencer has performed its emissions (`max N 1` calls: the `N`-th emission for
`N >= 1`, or the immediately-frozen placeholder for `N = 0`), every further
call with unchanged inputs on an unchanged file returns `done = true` and the
very same output — the frozen `(prompt, line_index, step_index)` stored by the
last emission — and the state never advances again. -/
theorem claim_C2 (inp : SeqInputs) (env : SeqEnv) (N : Nat)
    (hfp : inp.file_path ≠ "") (hr : inp.reset = false) (ha : inp.auto_reset = false)
    (hms : inp.max_steps = (N : Int)) (hne : env.lines ≠ []) :
    ∃ s out, runSeq inp env (max N 1) = some (s, some out) ∧ out.done = true ∧
      out.prompt = s.last_prompt ∧ out.line_index = s.last_line_index ∧
      out.step_index = s.last_step_index ∧
      ∀ j, runSeq inp env (max N 1 + j) = some (s, some out) := by
  have h0 : 0 ≤ inp.max_steps := by rw [hms]; omega
  have key : ∃ s out, runSeq inp env (max N 1) = some (s, some out) ∧
      seqConforms inp env s ∧ inp.max_steps ≤ (s.emitted_steps : Int) ∧
      out = ⟨s.last_prompt, s.last_line_index, s.last_step_index, s.total_lines, true⟩ := by
    rcases Nat.eq_zero_or_pos N with hN | hN
    · subst hN
      obtain ⟨s0, hreset, hconf, hni, he, hlp, hlli, hlsi⟩ := seqResetState_some inp env hne
      have hm0 : inp.max_steps ≤ ((s0.emitted_steps : Nat) : Int) := by
        rw [hms, he]
      have hcore := nextPromptCore_frozen inp env s0
        (by rw [hconf.2.2.2.2.2.2.2.2.1, ha]) h0 hm0
      have hcall : nextPrompt initSeqState inp env =
          some (⟨s0.last_prompt, s0.last_line_index, s0.last_step_index, s0.total_lines, true⟩, s0) := by
        rw [nextPrompt_after_reset inp env initSeqState hfp
          (seqShouldReset_init inp env.mtime) s0 hreset, hcore]
      refine ⟨s0, _, ?_, hconf, hm0, rfl⟩
      simpa using runSeq_step inp env 0 initSeqState none _ s0 rfl hcall
    · obtain ⟨s, out, hrun, hconf, he, hp, hli, hsi, htl, hdone⟩ :=
        runSeq_reaches inp env N hfp hr hms hne N hN (by omega)
      have hout : out = ⟨s.last_prompt, s.last_line_index, s.last_step_index, s.total_lines, true⟩ := by
        obtain ⟨op, oli, osi, otl, od⟩ := out
        simp only [SeqOutput.mk.injEq]
        refine ⟨hp, hli, hsi, htl, ?_⟩
        refine hdone.trans ?_
        rw [hms]
        simp
      refine ⟨s, out, ?_, hconf, ?_, hout⟩
      · rw [Nat.max_eq_left hN]
        exact hrun
      · rw [hms, he]
  obtain ⟨s, out, hrunM, hconf, hm, hout⟩ := key
  refine ⟨s, out, hrunM, by rw [hout], by rw [hout], by rw [hout], by rw [hout], ?_⟩
  intro j
  induction j with
  | zero => exact hrunM
  | succ j ih =>
    exact runSeq_step inp env (max N 1 + j) s (some out) out s ih
      (by rw [hout, nextPrompt_frozen inp env s hconf hfp hr ha h0 hm])

/-- Witness for C2: `max_steps = 2` on the three-line file `a,b,c`. -/
theorem claim_C2_witness :
    ∃ s out,
      runSeq ⟨"f.txt", 1, 1, 2, false, false, "", true⟩ ⟨["a", "b", "c"], 0⟩ (max 2 1) =
        some (s, some out) ∧ out.done = true ∧
      out.prompt = s.last_prompt ∧ out.line_index = s.last_line_index ∧
      out.step_index = s.last_step_index ∧
      ∀ j, runSeq ⟨"f.txt", 1, 1, 2, false, false, "", true⟩ ⟨["a", "b", "c"], 0⟩ (max 2 1 + j) =
        some (s, some out) :=
  claim_C2 ⟨"f.txt", 1, 1, 2, false, false, "", true⟩ ⟨["a", "b", "c"], 0⟩ 2
    (by decide) rfl rfl (by decide) (by decide)

/-! ### Claim C10 -/

/-- Claim C10: with `max_steps = 0` and `auto_reset = false` on a non-empty
file, every call — the first included — returns the placeholder frozen output
`(prompt = "", line_index = 0, step_index = 0)` together with `done = true`
and `total_lines` equal to the record count; the state stays at the freshly
reset state forever (no record is ever emitted), and the returned
`line_index = 0` lies outside the 1-based range. -/
theorem claim_C10 (inp : SeqInputs) (env : SeqEnv)
    (hfp : inp.file_path ≠ "") (hr : inp.reset = false) (ha : inp.auto_reset = false)
    (hms : inp.max_steps = 0) (hne : env.lines ≠ []) :
    ∃ s0, seqResetState inp env = some s0 ∧
      ∀ k, 1 ≤ k → ∃ out, runSeq inp env k = some (s0, some out) ∧
        out = ⟨"", 0, 0, env.lines.length, true⟩ ∧ ¬(1 ≤ out.line_index) := by
  obtain ⟨s0, hreset, hconf, hni, he, hlp, hlli, hlsi⟩ := seqResetState_some inp env hne
  have h0 : 0 ≤ inp.max_steps := by rw [hms]
  have hm0 : inp.max_steps ≤ ((s0.emitted_steps : Nat) : Int) := by rw [hms]; omega
  have hfrozen : (⟨s0.last_prompt, s0.last_line_index, s0.last_step_index,
      s0.total_lines, true⟩ : SeqOutput) = ⟨"", 0, 0, env.lines.length, true⟩ := by
    rw [hlp, hlli, hlsi, hconf.2.2.2.2.2.2.2.2.2.2]
  have hcall1 : runSeq inp env 1 = some (s0, some ⟨"", 0, 0, env.lines.length, true⟩) := by
    refine runSeq_step inp env 0 initSeqState none _ s0 rfl ?_
    rw [nextPrompt_after_reset inp env initSeqState hfp
      (seqShouldReset_init inp env.mtime) s0 hreset,
      nextPromptCore_frozen inp env s0 (by rw [hconf.2.2.2.2.2.2.2.2.1, ha]) h0 hm0, hfrozen]
  refine ⟨s0, hreset, ?_⟩
  intro k hk
  induction k with
  | zero => omega
  | succ j ih =>
    rcases Nat.eq_zero_or_pos j with hj | hj
    · subst hj
      exact ⟨_, hcall1, rfl, by simp⟩
    · obtain ⟨out, hrun, hout, hlt⟩ := ih hj
      refine ⟨out, ?_, hout, hlt⟩
      refine runSeq_step inp env j s0 (some out) out s0 hrun ?_
      rw [nextPrompt_frozen inp env s0 hconf hfp hr ha h0 hm0, hfrozen, hout]

/-- Witness for C10: `max_steps = 0` on the two-line file `a,b`, checked at
the first and third calls. -/
theorem claim_C10_witness :
    ∃ s0, seqResetState ⟨"f.txt", 1, 1, 0, false, false, "", true⟩ ⟨["a", "b"], 0⟩ = some s0 ∧
      ∀ k, 1 ≤ k → ∃ out,
        runSeq ⟨"f.txt", 1, 1, 0, false, false, "", true⟩ ⟨["a", "b"], 0⟩ k =
          some (s0, some out) ∧
        out = ⟨"", 0, 0, (["a", "b"] : List String).length, true⟩ ∧ ¬(1 ≤ out.line_index) :=
  claim_C10 ⟨"f.txt", 1, 1, 0, false, false, "", true⟩ ⟨["a", "b"], 0⟩
    (by decide) rfl rfl rfl (by decide)

/-! ### Claim C3 -/

/-- Claim C3: with `auto_reset = true` and `max_steps >= 0`, a call made on an
exhausted state (with unchanged inputs and file) performs a full state reload
identical to first initialization — the call computes exactly what a call on a
fresh instance computes, emission included, from the reloaded state `s0` with
`next_index = start_value` and `emitted_steps = 0` — and emits
`step_index = 1`. -/
theorem claim_C3 (s : SeqState) (inp : SeqInputs) (env : SeqEnv)
    (h : seqConforms inp env s) (hfp : inp.file_path ≠ "") (hr : inp.reset = false)
    (ha : inp.auto_reset = true) (h0 : 0 ≤ inp.max_steps)
    (hm : inp.max_steps ≤ (s.emitted_steps : Int)) (hne : env.lines ≠ []) :
    nextPrompt s inp env = nextPrompt initSeqState inp env ∧
    ∃ s0 out s', seqResetState inp env = some s0 ∧
      s0.next_index = inp.start_value ∧ s0.emitted_steps = 0 ∧
      nextPrompt s inp env = seqEmit s0 inp ∧
      nextPrompt s inp env = some (out, s') ∧ out.step_index = 1 := by
  obtain ⟨s0, hreset, hconf0, hni, he, hlp, hlli, hlsi⟩ := seqResetState_some inp env hne
  have hexh : nextPrompt s inp env = seqEmit s0 inp := by
    unfold nextPrompt
    rw [if_neg hfp, seqShouldReset_false inp env s h hr, if_neg Bool.false_ne_true]
    unfold nextPromptCore
    rw [if_pos ⟨h0, hm⟩, h.2.2.2.2.2.2.2.2.1, ha, hreset]
    simp
  have hinit : nextPrompt initSeqState inp env = seqEmit s0 inp := by
    rw [nextPrompt_after_reset inp env initSeqState hfp
      (seqShouldReset_init inp env.mtime) s0 hreset]
    unfold nextPromptCore
    by_cases hc : 0 ≤ inp.max_steps ∧ inp.max_steps ≤ ((s0.emitted_steps : Nat) : Int)
    · rw [if_pos hc, hconf0.2.2.2.2.2.2.2.2.1, ha, hreset]
      simp
    · rw [if_neg hc]
  have hT : s0.total_lines = s0.lines.length := by
    rw [hconf0.2.2.2.2.2.2.2.2.2.2, hconf0.2.2.2.2.2.2.2.2.2.1]
  have hlne : s0.lines ≠ [] := by
    rw [hconf0.2.2.2.2.2.2.2.2.2.1]; exact hne
  obtain ⟨out, hemit, hsi, _, _, _⟩ := seqEmit_spec s0 inp hT hlne
  refine ⟨hexh.trans hinit.symm, s0, out,
    { s0 with
      emitted_steps := s0.emitted_steps + 1
      next_index := s0.next_index + s0.step
      last_prompt := out.prompt
      last_line_index := out.line_index
      last_step_index := s0.emitted_steps + 1 }, hreset, hni, he, hexh, ?_, ?_⟩
  · rw [hexh, hemit]
  · rw [hsi, he]

/-- Witness for C3: exhausted state after one emission with `max_steps = 1`
and `auto_reset = true` on the two-line file `a,b`. -/
theorem claim_C3_witness :
    nextPrompt ⟨true, "f.txt", some 7, "", true, 1, 1, 1, true, ["a", "b"], 2, 2, 1, "a", 1, 1⟩
        ⟨"f.txt", 1, 1, 1, true, false, "", true⟩ ⟨["a", "b"], 7⟩ =
      nextPrompt initSeqState ⟨"f.txt", 1, 1, 1, true, false, "", true⟩ ⟨["a", "b"], 7⟩ ∧
    ∃ s0 out s',
      seqResetState ⟨"f.txt", 1, 1, 1, true, false, "", true⟩ ⟨["a", "b"], 7⟩ = some s0 ∧
      s0.next_index = 1 ∧ s0.emitted_steps = 0 ∧
      nextPrompt ⟨true, "f.txt", some 7, "", true, 1, 1, 1, true, ["a", "b"], 2, 2, 1, "a", 1, 1⟩
          ⟨"f.txt", 1, 1, 1, true, false, "", true⟩ ⟨["a", "b"], 7⟩ =
        seqEmit s0 ⟨"f.txt", 1, 1, 1, true, false, "", true⟩ ∧
      nextPrompt ⟨true, "f.txt", some 7, "", true, 1, 1, 1, true, ["a", "b"], 2, 2, 1, "a", 1, 1⟩
          ⟨"f.txt", 1, 1, 1, true, false, "", true⟩ ⟨["a", "b"], 7⟩ = some (out, s') ∧
      out.step_index = 1 :=
  claim_C3 ⟨true, "f.txt", some 7, "", true, 1, 1, 1, true, ["a", "b"], 2, 2, 1, "a", 1, 1⟩
    ⟨"f.txt", 1, 1, 1, true, false, "", true⟩ ⟨["a", "b"], 7⟩
    ⟨rfl, rfl, rfl, rfl, rfl, rfl, rfl, rfl, rfl, rfl, rfl⟩
    (by decide) rfl rfl (by decide) (by decide) (by decide)

/-! ### Claim C9 -/

theorem runCount_progression (k : Nat) :
    runCount 0 (5 / 2 : Rat) (-1) false false (k + 1) =
      (some ((5 / 2 : Rat) * (k : Rat), k + 1, false),
        ⟨true, 0, 5 / 2, -1, false, (5 / 2 : Rat) * ((k : Rat) + 1),
          (5 / 2 : Rat) * (k : Rat), k + 1⟩) := by
  induction k with
  | zero =>
    show runCount 0 (5 / 2 : Rat) (-1) false false 1 = _
    norm_num [runCount, count, counterShouldReset, countEmit, counterReset, initCounterState]
  | succ k ih =>
    show runCount 0 (5 / 2 : Rat) (-1) false false (k + 1 + 1) = _
    rw [runCount, ih]
    norm_num [count, counterShouldReset, countEmit]
    ring

/-- Claim C9: for the counter with `start_value = 0`, `step = 2.5`,
`max_steps = -1` and unchanged inputs, the `k`-th call (`k >= 1`) returns
`value = 2.5 * (k - 1)` (successive values `0.0, 2.5, 5.0, ...`),
`step_index = k` (incrementing by exactly one each call), and `done = false`. -/
theorem claim_C9 (k : Nat) (hk : 1 ≤ k) :
    (runCount 0 (5 / 2 : Rat) (-1) false false k).1 =
      some ((5 / 2 : Rat) * ((k : Rat) - 1), k, false) := by
  obtain ⟨j, rfl⟩ : ∃ j, k = j + 1 := ⟨k - 1, by omega⟩
  rw [runCount_progression j]
  push_cast
  norm_num

/-- Witness for C9: the third call returns `value = 5.0`. -/
theorem claim_C9_witness :
    (runCount 0 (5 / 2 : Rat) (-1) false false 3).1 =
      some ((5 / 2 : Rat) * ((3 : Rat) - 1), 3, false) :=
  claim_C9 3 (by decide)

/-! ### Association-list lemmas -/

theorem lookup_assocSet {α : Type} (d : List (String × α)) (k : String) (v : α) :
    (assocSet d k v).lookup k = some v := by
  simp [assocSet, List.lookup]

theorem posGet_assocSet (d : List (String × Nat)) (k : String) (v : Nat) :
    posGet (assocSet d k v) k = v := by
  simp [posGet, lookup_assocSet]

/-! ### Claim C4 -/

/-- Validity of the composer cache for one source: the stored entry matches
the file modification time and the request flags and holds `records`. -/
def cacheValid (st : ComposerState) (fs : FS) (path : String) (column : Option String)
    (strip ignore_blank : Bool) (records : List Record) : Prop :=
  ∃ f, fs.file path = some f ∧
    st.cache.lookup (path ++ "::" ++ column.getD "") =
      some ⟨f.mtime, strip, ignore_blank, records⟩

theorem loadFileLines_of_cacheValid (st : ComposerState) (fs : FS) (path : String)
    (column : Option String) (strip ignore_blank : Bool) (records : List Record)
    (h : cacheValid st fs path column strip ignore_blank records) :
    loadFileLines st fs path column strip ignore_blank = some (records, true, st) := by
  obtain ⟨f, hf, he⟩ := h
  simp [loadFileLines, hf, he]

theorem loadFileLines_establishes (st : ComposerState) (fs : FS) (path : String)
    (column : Option String) (strip ignore_blank : Bool) (records : List Record)
    (b : Bool) (st' : ComposerState)
    (h : loadFileLines st fs path column strip ignore_blank = some (records, b, st')) :
    cacheValid st' fs path column strip ignore_blank records ∧
    st'.positions = st.positions ∧ st'.global_step = st.global_step := by
  rcases hf : fs.file path with _ | f
  · simp [loadFileLines, hf] at h
  · rcases hl : List.lookup (path ++ "::" ++ column.getD "") st.cache with _ | e
    · rcases hr : readContent f.content column strip ignore_blank with _ | recs
      · simp [loadFileLines, hf, hl, hr] at h
      · simp only [loadFileLines, hf, hl, hr, Option.some.injEq, Prod.mk.injEq] at h
        obtain ⟨h1, _, h3⟩ := h
        subst h1
        refine ⟨⟨f, hf, ?_⟩, ?_, ?_⟩ <;> rw [← h3]
        exact lookup_assocSet st.cache _ _
    · by_cases hv : e.mtime = f.mtime ∧ e.strip = strip ∧ e.ignore_blank = ignore_blank
      · simp only [loadFileLines, hf, hl, if_pos hv, Option.some.injEq, Prod.mk.injEq] at h
        obtain ⟨h1, _, h3⟩ := h
        subst h1
        refine ⟨⟨f, hf, ?_⟩, ?_, ?_⟩ <;> rw [← h3]
        rw [hl]
        congr 1
        obtain ⟨e1, e2, e3, e4⟩ := e
        simp only at hv
        simp [hv.1, hv.2.1, hv.2.2]
      · rcases hr : readContent f.content column strip ignore_blank with _ | recs
        · simp [loadFileLines, hf, hl, if_neg hv, hr] at h
        · simp only [loadFileLines, hf, hl, if_neg hv, hr, Option.some.injEq,
            Prod.mk.injEq] at h
          obtain ⟨h1, _, h3⟩ := h
          subst h1
          refine ⟨⟨f, hf, ?_⟩, ?_, ?_⟩ <;> rw [← h3]
          exact lookup_assocSet st.cache _ _

theorem selectLine_sequential (st : ComposerState) (fs : FS)
    (fseed : Int → Nat → Nat → Nat) (funseed : Nat → Nat → Nat → Nat)
    (path : String) (column : Option String) (strip ib : Bool) (rng : Rng)
    (records : List Record) (b : Bool) (st1 : ComposerState)
    (hload : loadFileLines st fs path column strip ib = some (records, b, st1))
    (hne : records ≠ []) :
    selectLineFromFile st fs fseed funseed path column "SEQUENTIAL" strip ib rng =
      some ((
        (records.getD
          (posGet st1.positions (path ++ "::" ++ column.getD "") % records.length)
          ⟨0, ""⟩).text,
        (records.getD
          (posGet st1.positions (path ++ "::" ++ column.getD "") % records.length)
          ⟨0, ""⟩).line_index,
        records.length),
        { st1 with
          positions := assocSet st1.positions (path ++ "::" ++ column.getD "")
            (posGet st1.positions (path ++ "::" ++ column.getD "") + 1) }, rng) := by
  have hlt : posGet st1.positions (path ++ "::" ++ column.getD "") % records.length <
      records.length :=
    Nat.mod_lt _ (List.length_pos.mpr hne)
  simp only [selectLineFromFile, hload, if_neg hne, if_pos rfl,
    List.getElem?_eq_getElem hlt]
  rw [List.getD_eq_getElem records ⟨0, ""⟩ hlt]
  simp

/-- Repeated sequential selections from one source on one composer instance:
`n` calls of `_select_line_from_file` in `SEQUENTIAL` mode; returns the state
after the calls and the output of the last call. -/
def runSeqSelect (fs : FS) (fseed : Int → Nat → Nat → Nat)
    (funseed : Nat → Nat → Nat → Nat) (path : String) (column : Option String)
    (strip ignore_blank : Bool) (rng : Rng) :
    Nat → ComposerState → Option (ComposerState × Option (String × Nat × Nat))
  | 0, st => some (st, none)
  | n + 1, st =>
    match runSeqSelect fs fseed funseed path column strip ignore_blank rng n st with
    | none => none
    | some (st1, _) =>
      match selectLineFromFile st1 fs fseed funseed path column "SEQUENTIAL" strip
          ignore_blank rng with
      | none => none
      | some (out, st2, _) => some (st2, some out)

theorem runSeqSelect_step (fs : FS) (fseed : Int → Nat → Nat → Nat)
    (funseed : Nat → Nat → Nat → Nat) (path : String) (column : Option String)
    (strip ib : Bool) (rng : Rng) (n : Nat) (st0 st : ComposerState)
    (o : Option (String × Nat × Nat)) (out : String × Nat × Nat)
    (st2 : ComposerState) (r2 : Rng)
    (h : runSeqSelect fs fseed funseed path column strip ib rng n st0 = some (st, o))
    (h2 : selectLineFromFile st fs fseed funseed path column "SEQUENTIAL" strip ib rng =
      some (out, st2, r2)) :
    runSeqSelect fs fseed funseed path column strip ib rng (n + 1) st0 =
      some (st2, some out) := by
  simp only [runSeqSelect, h, h2]

/-- Claim C4: in `SEQUENTIAL` mode, starting with cursor 0 for the source key,
the `(n+1)`-th call selects `records[n mod len(records)]` and afterwards the
stored cursor equals `n + 1` — the cursor grows by exactly one per call and is
never itself reduced modulo the record count — and the selection pattern is
periodic with period `len(records)`. -/
theorem claim_C4 (fs : FS) (fseed : Int → Nat → Nat → Nat)
    (funseed : Nat → Nat → Nat → Nat) (path : String) (column : Option String)
    (strip ib : Bool) (rng : Rng) (st0 : ComposerState) (records : List Record)
    (b : Bool) (st1 : ComposerState)
    (hload : loadFileLines st0 fs path column strip ib = some (records, b, st1))
    (hne : records ≠ [])
    (hpos0 : posGet st0.positions (path ++ "::" ++ column.getD "") = 0) :
    ∀ n : Nat, ∃ st,
      runSeqSelect fs fseed funseed path column strip ib rng (n + 1) st0 =
        some (st, some (
          (records.getD (n % records.length) ⟨0, ""⟩).text,
          (records.getD (n % records.length) ⟨0, ""⟩).line_index,
          records.length)) ∧
      posGet st.positions (path ++ "::" ++ column.getD "") = n + 1 ∧
      records.getD ((n + records.length) % records.length) ⟨0, ""⟩ =
        records.getD (n % records.length) ⟨0, ""⟩ := by
  have hper : ∀ n : Nat, records.getD ((n + records.length) % records.length) ⟨0, ""⟩ =
      records.getD (n % records.length) ⟨0, ""⟩ := by
    intro n
    rw [Nat.add_mod_right]
  have key : ∀ n : Nat, ∃ st,
      runSeqSelect fs fseed funseed path column strip ib rng (n + 1) st0 =
        some (st, some (
          (records.getD (n % records.length) ⟨0, ""⟩).text,
          (records.getD (n % records.length) ⟨0, ""⟩).line_index,
          records.length)) ∧
      cacheValid st fs path column strip ib records ∧
      posGet st.positions (path ++ "::" ++ column.getD "") = n + 1 := by
    intro n
    induction n with
    | zero =>
      obtain ⟨hcv1, hp1, _⟩ := loadFileLines_establishes st0 fs path column strip ib
        records b st1 hload
      refine ⟨{ st1 with
          positions := assocSet st1.positions (path ++ "::" ++ column.getD "") (0 + 1) },
        ?_, ?_, ?_⟩
      · have hsel := selectLine_sequential st0 fs fseed funseed path column strip ib rng
          records b st1 hload hne
        rw [show posGet st1.positions (path ++ "::" ++ column.getD "") = 0 from
          by rw [hp1]; exact hpos0] at hsel
        exact runSeqSelect_step fs fseed funseed path column strip ib rng 0 st0 st0
          none _ _ rng rfl hsel
      · exact hcv1
      · exact posGet_assocSet st1.positions _ (0 + 1)
    | succ n ih =>
      obtain ⟨st, hrun, hcv, hpos⟩ := ih
      have hload2 := loadFileLines_of_cacheValid st fs path column strip ib records hcv
      refine ⟨{ st with
          positions := assocSet st.positions (path ++ "::" ++ column.getD "")
            (n + 1 + 1) }, ?_, ?_, ?_⟩
      · have hsel := selectLine_sequential st fs fseed funseed path column strip ib rng
          records true st hload2 hne
        rw [hpos] at hsel
        exact runSeqSelect_step fs fseed funseed path column strip ib rng (n + 1) st0 st
          _ _ _ rng hrun hsel
      · exact hcv
      · exact posGet_assocSet st.positions _ (n + 1 + 1)
  intro n
  obtain ⟨st, hrun, _, hpos⟩ := key n
  exact ⟨st, hrun, hpos, hper n⟩

/-- Witness filesystem: one three-line text file `w.txt` with lines `a,b,c`. -/
def fsThree : FS :=
  ⟨fun p => if p = "w.txt" then some ⟨0, FileContent.text ["a", "b", "c"]⟩ else none,
   fun _ => [], fun _ => false⟩

/-- Witness for C4: fresh composer, the file `w.txt` with records
`(1,a) (2,b) (3,c)`, checked at the fifth call (`n = 4`, cursor 4, index
`4 mod 3 = 1`, the record `(2, b)`). -/
theorem claim_C4_witness :
    ∃ st,
      runSeqSelect fsThree (fun _ _ _ => 0) (fun _ _ _ => 0) "w.txt" none false true
          ⟨false, 0, 0, 0⟩ (4 + 1) initComposerState =
        some (st, some (
          (([⟨1, "a"⟩, ⟨2, "b"⟩, ⟨3, "c"⟩] : List Record).getD (4 % 3) ⟨0, ""⟩).text,
          (([⟨1, "a"⟩, ⟨2, "b"⟩, ⟨3, "c"⟩] : List Record).getD (4 % 3) ⟨0, ""⟩).line_index,
          ([⟨1, "a"⟩, ⟨2, "b"⟩, ⟨3, "c"⟩] : List Record).length)) ∧
      posGet st.positions ("w.txt" ++ "::" ++ (none : Option String).getD "") = 4 + 1 ∧
      ([⟨1, "a"⟩, ⟨2, "b"⟩, ⟨3, "c"⟩] : List Record).getD
          ((4 + ([⟨1, "a"⟩, ⟨2, "b"⟩, ⟨3, "c"⟩] : List Record).length) %
            ([⟨1, "a"⟩, ⟨2, "b"⟩, ⟨3, "c"⟩] : List Record).length) ⟨0, ""⟩ =
        ([⟨1, "a"⟩, ⟨2, "b"⟩, ⟨3, "c"⟩] : List Record).getD (4 % 3) ⟨0, ""⟩ :=
  claim_C4 fsThree (fun _ _ _ => 0) (fun _ _ _ => 0) "w.txt" none false true
    ⟨false, 0, 0, 0⟩ initComposerState [⟨1, "a"⟩, ⟨2, "b"⟩, ⟨3, "c"⟩] false
    ⟨assocSet [] ("w.txt" ++ "::" ++ "") ⟨0, false, true, [⟨1, "a"⟩, ⟨2, "b"⟩, ⟨3, "c"⟩]⟩,
      [], 0⟩
    (by decide) (by decide) rfl 4

/-! ### Claim C5 -/

theorem loadFileLines_flag_mismatch (st : ComposerState) (fs : FS) (path : String)
    (column : Option String) (strip ib : Bool) (e : CacheEntry)
    (hl : List.lookup (path ++ "::" ++ column.getD "") st.cache = some e)
    (hmm : ¬(e.strip = strip ∧ e.ignore_blank = ib))
    (r : List Record) (b : Bool) (st' : ComposerState)
    (h : loadFileLines st fs path column strip ib = some (r, b, st')) :
    b = false := by
  rcases hf : fs.file path with _ | f
  · simp [loadFileLines, hf] at h
  · have hv : ¬(e.mtime = f.mtime ∧ e.strip = strip ∧ e.ignore_blank = ib) :=
      fun hc => hmm ⟨hc.2.1, hc.2.2⟩
    rcases hr : readContent f.content column strip ib with _ | recs
    · simp [loadFileLines, hf, hl, if_neg hv, hr] at h
    · simp only [loadFileLines, hf, hl, if_neg hv, hr, Option.some.injEq,
        Prod.mk.injEq] at h
      exact h.2.1.symm

/-- The three-call cache scenario of claim C5 on the concrete file `w.txt`:
load with formatting flags `A = (strip=false, ignore_blank=false)`, then with
`B = (false, true)`, then with `A` again (file unmodified throughout); the
returned value is the cache-hit flag of the third call. -/
def c5run : Option Bool :=
  match loadFileLines initComposerState fsThree "w.txt" none false false with
  | none => none
  | some (_, _, st1) =>
    match loadFileLines st1 fsThree "w.txt" none false true with
    | none => none
    | some (_, _, st2) =>
      match loadFileLines st2 fsThree "w.txt" none false false with
      | none => none
      | some (_, hit3, _) => some hit3

/-- Counterexample to claim C5 as stated: the third request with the original
flags is NOT a cache hit — the cache keys entries by `(path, column)` only, so
the load with flags `B` overwrote the entry made with flags `A`, and the claim
(which predicts `c5run = some true`) is false. -/
theorem claim_C5_counterexample : c5run = some false ∧ c5run ≠ some true := by
  refine ⟨by decide, by decide⟩

/-- Claim C5 amended: the composer cache keys entries by `(path, column)`
only; the formatting flags are stored inside the entry and compared on
lookup, so after loading with flags `A`, then with flags `B ≠ A`, a third
request with flags `A` on the unmodified file is a cache MISS that re-reads
the file and overwrites the entry (now carrying flags `A` and the fresh
records) — two flag variants never occupy distinct entries simultaneously. -/
theorem claim_C5_amended (st0 : ComposerState) (fs : FS) (path : String)
    (column : Option String) (s1 ib1 s2 ib2 : Bool)
    (hflags : ¬(s2 = s1 ∧ ib2 = ib1))
    (r1 r2 r3 : List Record) (b1 b2 b3 : Bool) (st1 st2 st3 : ComposerState)
    (h1 : loadFileLines st0 fs path column s1 ib1 = some (r1, b1, st1))
    (h2 : loadFileLines st1 fs path column s2 ib2 = some (r2, b2, st2))
    (h3 : loadFileLines st2 fs path column s1 ib1 = some (r3, b3, st3)) :
    b3 = false ∧
    ∃ f, fs.file path = some f ∧
      st3.cache.lookup (path ++ "::" ++ column.getD "") =
        some ⟨f.mtime, s1, ib1, r3⟩ := by
  obtain ⟨⟨f2, hf2, he2⟩, _, _⟩ :=
    loadFileLines_establishes st1 fs path column s2 ib2 r2 b2 st2 h2
  refine ⟨?_, ?_⟩
  · exact loadFileLines_flag_mismatch st2 fs path column s1 ib1 _ he2
      (by simpa using hflags) r3 b3 st3 h3
  · obtain ⟨hcv3, _, _⟩ :=
      loadFileLines_establishes st2 fs path column s1 ib1 r3 b3 st3 h3
    exact hcv3

/-- Witness for the amended C5 on the concrete scenario of `c5run`. -/
theorem claim_C5_amended_witness : ∃ r1 b1 st1 r2 b2 st2 r3 b3 st3,
    loadFileLines initComposerState fsThree "w.txt" none false false =
      some (r1, b1, st1) ∧
    loadFileLines st1 fsThree "w.txt" none false true = some (r2, b2, st2) ∧
    loadFileLines st2 fsThree "w.txt" none false false = some (r3, b3, st3) ∧
    b3 = false ∧
    ∃ f, fsThree.file "w.txt" = some f ∧
      st3.cache.lookup ("w.txt" ++ "::" ++ (none : Option String).getD "") =
        some ⟨f.mtime, false, false, r3⟩ := by
  refine ⟨_, _, _, _, _, _, _, _, _, rfl, rfl, rfl, ?_⟩
  exact claim_C5_amended initComposerState fsThree "w.txt" none false false false true
    (by decide) _ _ _ _ _ _ _ _ _ rfl rfl rfl

/-! ### Claim C6 -/

theorem readTextFileAux_bounds (strip ib : Bool) :
    ∀ (lines : List String) (i0 : Nat) (r : Record),
      r ∈ readTextFileAux strip ib lines i0 →
      i0 ≤ r.line_index ∧ r.line_index < i0 + lines.length := by
  intro lines
  induction lines with
  | nil =>
    intro i0 r h
    simp [readTextFileAux] at h
  | cons l rest ih =>
    intro i0 r h
    have key : r ∈ readTextFileAux strip ib rest (i0 + 1) ∨ r.line_index = i0 := by
      simp only [readTextFileAux] at h
      split at h
      · split at h
        · exact Or.inl h
        · rcases List.mem_cons.mp h with h | h
          · subst h
            exact Or.inr rfl
          · exact Or.inl h
      · split at h
        · exact Or.inl h
        · rcases List.mem_cons.mp h with h | h
          · subst h
            exact Or.inr rfl
          · exact Or.inl h
    rcases key with h | h
    · have := ih (i0 + 1) r h
      simp only [List.length_cons]
      omega
    · simp only [List.length_cons]
      omega

theorem readCsvPlainAux_bounds (strip ib : Bool) :
    ∀ (rows : List (List String)) (i0 : Nat) (r : Record),
      r ∈ readCsvPlainAux strip ib rows i0 →
      i0 ≤ r.line_index ∧ r.line_index < i0 + rows.length := by
  intro rows
  induction rows with
  | nil =>
    intro i0 r h
    simp [readCsvPlainAux] at h
  | cons l rest ih =>
    intro i0 r h
    have key : r ∈ readCsvPlainAux strip ib rest (i0 + 1) ∨ r.line_index = i0 := by
      simp only [readCsvPlainAux] at h
      split at h
      · split at h
        · exact Or.inl h
        · rcases List.mem_cons.mp h with h | h
          · subst h
            exact Or.inr rfl
          · exact Or.inl h
      · split at h
        · exact Or.inl h
        · rcases List.mem_cons.mp h with h | h
          · subst h
            exact Or.inr rfl
          · exact Or.inl h
    rcases key with h | h
    · have := ih (i0 + 1) r h
      simp only [List.length_cons]
      omega
    · simp only [List.length_cons]
      omega

theorem readCsvColumnAux_bounds (strip ib : Bool) (colIdx : Nat) :
    ∀ (rows : List (List String)) (i0 : Nat) (r : Record),
      r ∈ readCsvColumnAux strip ib colIdx rows i0 →
      i0 ≤ r.line_index ∧ r.line_index < i0 + rows.length := by
  intro rows
  induction rows with
  | nil =>
    intro i0 r h
    simp [readCsvColumnAux] at h
  | cons l rest ih =>
    intro i0 r h
    have key : r ∈ readCsvColumnAux strip ib colIdx rest (i0 + 1) ∨ r.line_index = i0 := by
      simp only [readCsvColumnAux] at h
      split at h
      · split at h
        · exact Or.inl h
        · rcases List.mem_cons.mp h with h | h
          · subst h
            exact Or.inr rfl
          · exact Or.inl h
      · split at h
        · exact Or.inl h
        · rcases List.mem_cons.mp h with h | h
          · subst h
            exact Or.inr rfl
          · exact Or.inl h
    rcases key with h | h
    · have := ih (i0 + 1) r h
      simp only [List.length_cons]
      omega
    · simp only [List.length_cons]
      omega

/-- Counterexample to claim C6 as stated: the text file with lines
`["", "a"]` loaded with `ignore_blank = true` yields the single record
`(line_index 2, "a")`, whose `source_index = 2` exceeds `len(records) = 1`:
the bound `source_index <= len(records)` is false for filtered loads. -/
theorem claim_C6_counterexample :
    readTextFile ["", "a"] false true = [⟨2, "a"⟩] ∧
    ¬(∀ r ∈ readTextFile ["", "a"] false true,
        r.line_index ≤ (readTextFile ["", "a"] false true).length) := by
  refine ⟨by decide, by decide⟩

/-- Claim C6 amended: every record produced by any of the composer loading
operations has `1 <= source_index`, and `source_index` is bounded by the
length of the UNFILTERED read order (the raw line/row/paragraph count), not by
`len(records)`: when `strip`/`ignore_blank` filtering removes earlier records,
`source_index` can exceed `len(records)` (the original 1-based positions are
kept). -/
theorem claim_C6_amended :
    (∀ (lines : List String) (strip ib : Bool) (r : Record),
      r ∈ readTextFile lines strip ib →
      1 ≤ r.line_index ∧ r.line_index ≤ lines.length) ∧
    (∀ (rows : List (List String)) (strip ib : Bool) (r : Record),
      r ∈ readCsvPlain rows strip ib →
      1 ≤ r.line_index ∧ r.line_index ≤ rows.length) ∧
    (∀ (rows : List (List String)) (column : String) (strip ib : Bool)
        (records : List Record) (r : Record),
      readCsvColumn rows column strip ib = some records → r ∈ records →
      1 ≤ r.line_index ∧ r.line_index ≤ rows.length) := by
  refine ⟨?_, ?_, ?_⟩
  · intro lines strip ib r h
    have := readTextFileAux_bounds strip ib lines 1 r h
    omega
  · intro rows strip ib r h
    have := readCsvPlainAux_bounds strip ib rows 1 r h
    omega
  · intro rows column strip ib records r hsome h
    rcases rows with _ | ⟨header, body⟩
    · simp [readCsvColumn] at hsome
    · rcases hidx : header.indexOf? column with _ | colIdx
      · simp [readCsvColumn, hidx] at hsome
      · simp only [readCsvColumn, hidx, Option.some.injEq] at hsome
        subst hsome
        have := readCsvColumnAux_bounds strip ib colIdx body 1 r h
        simp only [List.length_cons]
        omega

/-- Witness for the amended C6 on the counterexample file: the record
`(2, "a")` of `["", "a"]` satisfies the amended bounds. -/
theorem claim_C6_amended_witness :
    1 ≤ (Record.mk 2 "a").line_index ∧
      (Record.mk 2 "a").line_index ≤ (["", "a"] : List String).length :=
  claim_C6_amended.1 ["", "a"] false true ⟨2, "a"⟩ (by decide)

/-! ### Claim C7 -/

/-- The entropy-independent part of an rng: whether it is seeded, its seed,
and its draw count. -/
def rngCore (r : Rng) : Bool × Int × Nat := (r.seeded, r.seed, r.draws)

theorem selectLine_rng_seeded (st : ComposerState) (fs : FS)
    (fseed : Int → Nat → Nat → Nat) (fu : Nat → Nat → Nat → Nat)
    (path : String) (column : Option String) (m : String) (strip ib : Bool)
    (r : Rng) (out : String × Nat × Nat) (st' : ComposerState) (r' : Rng)
    (h : selectLineFromFile st fs fseed fu path column m strip ib r =
      some (out, st', r')) : r'.seeded = r.seeded := by
  rcases hl : loadFileLines st fs path column strip ib with _ | ⟨records, b, st1⟩
  · simp [selectLineFromFile, hl] at h
  · simp only [selectLineFromFile, hl] at h
    split at h
    · exact absurd h (by simp)
    · split at h
      · split at h
        · exact absurd h (by simp)
        · simp only [Option.some.injEq, Prod.mk.injEq] at h
          rw [← h.2.2]
      · split at h
        · exact absurd h (by simp)
        · simp only [Option.some.injEq, Prod.mk.injEq] at h
          rw [← h.2.2]
          simp [rngRandrange]

theorem selectLine_seeded_eq (st : ComposerState) (fs : FS)
    (fseed : Int → Nat → Nat → Nat) (f1 f2 : Nat → Nat → Nat → Nat)
    (path : String) (column : Option String) (m : String) (strip ib : Bool)
    (r1 r2 : Rng) (h1 : r1.seeded = true) (h2 : r2.seeded = true)
    (hc : rngCore r1 = rngCore r2) :
    (selectLineFromFile st fs fseed f1 path column m strip ib r1).map
        (fun x => (x.1, x.2.1, rngCore x.2.2)) =
      (selectLineFromFile st fs fseed f2 path column m strip ib r2).map
        (fun x => (x.1, x.2.1, rngCore x.2.2)) := by
  have hseed : r1.seed = r2.seed := by
    have := congrArg (fun p => p.2.1) hc
    simpa [rngCore] using this
  have hdraws : r1.draws = r2.draws := by
    have := congrArg (fun p => p.2.2) hc
    simpa [rngCore] using this
  rcases hl : loadFileLines st fs path column strip ib with _ | ⟨records, b, st1⟩
  · simp [selectLineFromFile, hl]
  · by_cases hne : records = []
    · simp [selectLineFromFile, hl, hne]
    · by_cases hm : m = "SEQUENTIAL"
      · subst hm
        simp only [selectLineFromFile, hl, if_neg hne, if_pos rfl]
        rcases hg : records[posGet st1.positions (path ++ "::" ++ column.getD "") %
            records.length]? with _ | r
        · simp
        · simp [hc]
      · have hlen : 0 < records.length := List.length_pos.mpr hne
        have e1 : rngRandrange r1 records.length fseed f1 =
            (fseed r2.seed r2.draws records.length % records.length,
              { r1 with draws := r1.draws + 1 }) := by
          simp [rngRandrange, h1, hseed, hdraws]
        have e2 : rngRandrange r2 records.length fseed f2 =
            (fseed r2.seed r2.draws records.length % records.length,
              { r2 with draws := r2.draws + 1 }) := by
          simp [rngRandrange, h2]
        have hidx : fseed r2.seed r2.draws records.length % records.length <
            records.length := Nat.mod_lt _ hlen
        simp only [selectLineFromFile, hl, if_neg hne, if_neg hm, e1, e2,
          List.getElem?_eq_getElem hidx, Option.map_some']
        simp [rngCore, hseed, hdraws, h1, h2]

theorem composeLoop_seeded_eq (fs : FS) (fseed : Int → Nat → Nat → Nat)
    (f1 f2 : Nat → Nat → Nat → Nat) (inp : ComposeInputs) (inserts : List String) :
    ∀ (files : List String) (idx : Nat) (st : ComposerState) (r1 r2 : Rng),
      r1.seeded = true → r2.seeded = true → rngCore r1 = rngCore r2 →
      (composeLoop fs fseed f1 inp inserts files idx st r1).map
          (fun x => (x.1, x.2.1, x.2.2.1, rngCore x.2.2.2)) =
        (composeLoop fs fseed f2 inp inserts files idx st r2).map
          (fun x => (x.1, x.2.1, x.2.2.1, rngCore x.2.2.2)) := by
  intro files
  induction files with
  | nil =>
    intro idx st r1 r2 h1 h2 hc
    simp [composeLoop, hc]
  | cons entry rest ih =>
    intro idx st r1 r2 h1 h2 hc
    have hsel := selectLine_seeded_eq st fs fseed f1 f2
      (splitPathAndColumn entry inp.csv_column).1 (splitPathAndColumn entry inp.csv_column).2
      inp.selection_mode inp.strip_whitespace inp.ignore_blank_lines r1 r2 h1 h2 hc
    rcases hs1 : selectLineFromFile st fs fseed f1 (splitPathAndColumn entry inp.csv_column).1
        (splitPathAndColumn entry inp.csv_column).2 inp.selection_mode inp.strip_whitespace
        inp.ignore_blank_lines r1 with _ | ⟨out1, st1, r1'⟩
    · rw [hs1] at hsel
      rcases hs2 : selectLineFromFile st fs fseed f2 (splitPathAndColumn entry inp.csv_column).1
          (splitPathAndColumn entry inp.csv_column).2 inp.selection_mode inp.strip_whitespace
          inp.ignore_blank_lines r2 with _ | ⟨out2, st2, r2'⟩
      · simp [composeLoop, hs1, hs2]
      · rw [hs2] at hsel
        simp at hsel
    · rw [hs1] at hsel
      rcases hs2 : selectLineFromFile st fs fseed f2 (splitPathAndColumn entry inp.csv_column).1
          (splitPathAndColumn entry inp.csv_column).2 inp.selection_mode inp.strip_whitespace
          inp.ignore_blank_lines r2 with _ | ⟨out2, st2, r2'⟩
      · rw [hs2] at hsel
        simp at hsel
      · rw [hs2] at hsel
        simp only [Option.map_some', Option.some.injEq, Prod.mk.injEq] at hsel
        obtain ⟨hout, hst, hcore⟩ := hsel
        subst hout
        subst hst
        have h1' : r1'.seeded = true := by
          rw [selectLine_rng_seeded st fs fseed f1 _ _ _ _ _ r1 out1 st1 r1' hs1]
          exact h1
        have h2' : r2'.seeded = true := by
          rw [selectLine_rng_seeded st fs fseed f2 _ _ _ _ _ r2 out1 st1 r2' hs2]
          exact h2
        have hrec := ih (idx + 1) st1 r1' r2' h1' h2' hcore
        simp only [composeLoop, hs1, hs2]
        rcases hr1 : composeLoop fs fseed f1 inp inserts rest (idx + 1) st1 r1' with
          _ | ⟨parts, segs, stL, rL⟩
        · rw [hr1] at hrec
          rcases hr2 : composeLoop fs fseed f2 inp inserts rest (idx + 1) st1 r2' with
            _ | y
          · simp
          · rw [hr2] at hrec
            simp at hrec
        · rw [hr1] at hrec
          rcases hr2 : composeLoop fs fseed f2 inp inserts rest (idx + 1) st1 r2' with
            _ | ⟨parts2, segs2, stL2, rL2⟩
          · rw [hr2] at hrec
            simp at hrec
          · rw [hr2] at hrec
            simp only [Option.map_some', Option.some.injEq, Prod.mk.injEq] at hrec
            obtain ⟨hp, hsg, hstL, hcL⟩ := hrec
            simp [hp, hsg, hstL, hcL]

theorem compose_seeded (st0 : ComposerState) (fs : FS)
    (fseed : Int → Nat → Nat → Nat) (f1 f2 : Nat → Nat → Nat → Nat)
    (inp : ComposeInputs) (e1 e2 : Nat) (hseed : 0 ≤ inp.random_seed) :
    compose st0 fs fseed f1 inp e1 = compose st0 fs fseed f2 inp e2 := by
  unfold compose
  rcases hg : gatherFiles fs inp with _ | files
  · rfl
  · by_cases hf : files = []
    · simp [hf]
    · simp only [if_neg hf, makeRng, if_pos hseed]
      have hloop := composeLoop_seeded_eq fs fseed f1 f2 inp
        (parseCustomInserts inp.custom_inserts) files 0
        { (if inp.reset then resetComposer st0 else st0) with
          global_step := (if inp.reset then resetComposer st0 else st0).global_step + 1 }
        ⟨true, inp.random_seed +
          ((if inp.reset then resetComposer st0 else st0).global_step + 1 : Nat) - 1, e1, 0⟩
        ⟨true, inp.random_seed +
          ((if inp.reset then resetComposer st0 else st0).global_step + 1 : Nat) - 1, e2, 0⟩
        rfl rfl rfl
      rcases hr1 : composeLoop fs fseed f1 inp (parseCustomInserts inp.custom_inserts) files 0
          { (if inp.reset then resetComposer st0 else st0) with
            global_step := (if inp.reset then resetComposer st0 else st0).global_step + 1 }
          ⟨true, inp.random_seed +
            ((if inp.reset then resetComposer st0 else st0).global_step + 1 : Nat) - 1, e1, 0⟩
        with _ | ⟨parts, segs, stL, rL⟩
      · rw [hr1] at hloop
        rcases hr2 : composeLoop fs fseed f2 inp (parseCustomInserts inp.custom_inserts) files 0
            { (if inp.reset then resetComposer st0 else st0) with
              global_step := (if inp.reset then resetComposer st0 else st0).global_step + 1 }
            ⟨true, inp.random_seed +
              ((if inp.reset then resetComposer st0 else st0).global_step + 1 : Nat) - 1, e2, 0⟩
          with _ | y
        · simp [hr1, hr2]
        · rw [hr2] at hloop
          simp at hloop
      · rw [hr1] at hloop
        rcases hr2 : composeLoop fs fseed f2 inp (parseCustomInserts inp.custom_inserts) files 0
            { (if inp.reset then resetComposer st0 else st0) with
              global_step := (if inp.reset then resetComposer st0 else st0).global_step + 1 }
            ⟨true, inp.random_seed +
              ((if inp.reset then resetComposer st0 else st0).global_step + 1 : Nat) - 1, e2, 0⟩
          with _ | ⟨parts2, segs2, stL2, rL2⟩
        · rw [hr2] at hloop
          simp at hloop
        · rw [hr2] at hloop
          simp only [Option.map_some', Option.some.injEq, Prod.mk.injEq] at hloop
          obtain ⟨hp, hsg, hstL, _⟩ := hloop
          simp [hr1, hr2, hp, hsg, hstL]

theorem runComposer_seeded (fs : FS) (fseed : Int → Nat → Nat → Nat)
    (f1 f2 : Nat → Nat → Nat → Nat) :
    ∀ (calls : List (ComposeInputs × Nat × Nat)) (st : ComposerState),
      (∀ c ∈ calls, 0 ≤ c.1.random_seed) →
      runComposer fs fseed f1 st (calls.map fun c => (c.1, c.2.1)) =
        runComposer fs fseed f2 st (calls.map fun c => (c.1, c.2.2)) := by
  intro calls
  induction calls with
  | nil =>
    intro st _
    rfl
  | cons c rest ih =>
    intro st hseed
    simp only [List.map_cons, runComposer]
    rw [compose_seeded st fs fseed f1 f2 c.1 c.2.1 c.2.2 (hseed c (by simp))]
    rcases h2 : compose st fs fseed f2 c.1 c.2.2 with _ | ⟨out, st'⟩
    · rfl
    · simp only []
      rw [ih st' (fun d hd => hseed d (by simp [hd]))]

/-- Claim C7: with every call using `random_seed >= 0`, two fresh composer
instances issuing the same ordered sequence of `compose` calls over the same
filesystem produce identical outputs (and identical final state) even when
their unseeded randomness sources (`f1`/`f2`) and per-call OS entropy differ:
each call's draws depend only on `(random_seed, call_sequence_number)` through
the shared seeded source `fseed`. -/
theorem claim_C7 (fs : FS) (fseed : Int → Nat → Nat → Nat)
    (f1 f2 : Nat → Nat → Nat → Nat) (calls : List (ComposeInputs × Nat × Nat))
    (hseed : ∀ c ∈ calls, 0 ≤ c.1.random_seed) :
    runComposer fs fseed f1 initComposerState (calls.map fun c => (c.1, c.2.1)) =
      runComposer fs fseed f2 initComposerState (calls.map fun c => (c.1, c.2.2)) :=
  runComposer_seeded fs fseed f1 f2 calls initComposerState hseed

/-- A concrete `compose` input for the C7 witness: manual mode, random
selection, `random_seed = 7`. -/
def c7inp : ComposeInputs :=
  ⟨"MANUAL", "RANDOM", true, false, true, 7, "w.txt", "", "", "*.txt", 16,
    "", "", "", "", false⟩

/-- Witness for C7: two two-call runs with seed 7, differing unseeded sources
and entropies, produce identical results. -/
theorem claim_C7_witness :
    runComposer fsThree (fun s d n => (s.toNat + d) % (n + 1)) (fun e d n => e + d + n)
        initComposerState ([(c7inp, 3, 4), (c7inp, 5, 6)].map fun c => (c.1, c.2.1)) =
      runComposer fsThree (fun s d n => (s.toNat + d) % (n + 1)) (fun _ _ _ => 0)
        initComposerState ([(c7inp, 3, 4), (c7inp, 5, 6)].map fun c => (c.1, c.2.2)) :=
  claim_C7 fsThree (fun s d n => (s.toNat + d) % (n + 1)) (fun e d n => e + d + n)
    (fun _ _ _ => 0) [(c7inp, 3, 4), (c7inp, 5, 6)] (by decide)

/-! ### Claim C8 -/

/-- Claim C8: a `compose` call with `reset = true` clears the whole
`PositionTable` and zeroes the internal call-sequence counter used for rng
seeding, while leaving every cache entry unchanged; consequently the call
computes exactly what it would compute from a state whose positions and
counter are already cleared but whose cache is kept. -/
theorem claim_C8 (st : ComposerState) (fs : FS) (fseed : Int → Nat → Nat → Nat)
    (funseed : Nat → Nat → Nat → Nat) (inp : ComposeInputs) (e : Nat)
    (hreset : inp.reset = true) :
    (resetComposer st).positions = [] ∧ (resetComposer st).global_step = 0 ∧
    (resetComposer st).cache = st.cache ∧
    compose st fs fseed funseed inp e =
      compose { st with positions := [], global_step := 0 } fs fseed funseed inp e := by
  refine ⟨rfl, rfl, rfl, ?_⟩
  unfold compose
  rw [hreset]
  rfl

/-- Witness for C8: a state with one cache entry, one cursor and a nonzero
counter. -/
theorem claim_C8_witness :
    (resetComposer ⟨[("w.txt::", ⟨0, false, true, [⟨1, "a"⟩]⟩)], [("w.txt::", 2)], 5⟩).positions
        = [] ∧
    (resetComposer ⟨[("w.txt::", ⟨0, false, true, [⟨1, "a"⟩]⟩)], [("w.txt::", 2)], 5⟩).global_step
        = 0 ∧
    (resetComposer ⟨[("w.txt::", ⟨0, false, true, [⟨1, "a"⟩]⟩)], [("w.txt::", 2)], 5⟩).cache =
      (⟨[("w.txt::", ⟨0, false, true, [⟨1, "a"⟩]⟩)], [("w.txt::", 2)], 5⟩ : ComposerState).cache ∧
    compose ⟨[("w.txt::", ⟨0, false, true, [⟨1, "a"⟩]⟩)], [("w.txt::", 2)], 5⟩ fsThree
        (fun _ _ _ => 0) (fun _ _ _ => 0) { c7inp with reset := true } 0 =
      compose ⟨[("w.txt::", ⟨0, false, true, [⟨1, "a"⟩]⟩)], [], 0⟩ fsThree
        (fun _ _ _ => 0) (fun _ _ _ => 0) { c7inp with reset := true } 0 :=
  claim_C8 ⟨[("w.txt::", ⟨0, false, true, [⟨1, "a"⟩]⟩)], [("w.txt::", 2)], 5⟩ fsThree
    (fun _ _ _ => 0) (fun _ _ _ => 0) { c7inp with reset := true } 0 rfl
